import Mathlib

/-!
Verification of the line-parsing engine of `read_table_cpp.h` (repository
dkondor/read_table). The C++ `line_parser` class is embedded shallowly:
the parser state is a structure, each member function becomes a Lean
function from the old state to a result together with the new state, and
the C library conversion routines `strtol` / `strtoul` are modelled as
pure functions on character lists (LP64 data model: `long` is 64-bit, so
the `use_long` / `use_ulong` compile-time branches of the source resolve
to the `strtol` / `strtoul` paths).  Machine integers are modelled as
`Int` / `Nat` with the explicit clamping the C routines perform.
-/

namespace ReadTable

/-- The error codes of `enum read_table_errors` in `read_table_cpp.h`. -/
inductive RTError where
  | T_OK | T_EOF | T_EOL | T_MISSING | T_FORMAT | T_OVERFLOW
  | T_NAN | T_TYPE | T_COPIED | T_ERROR_FOPEN | T_READ_ERROR
deriving DecidableEq, Repr

/-- The C `char` value 0, used by the source to mean "no delimiter" /
"no comment character". -/
def nullChar : Char := Char.ofNat 0

/-- State of the C++ `line_parser` class: the current line `buf`, the scan
position `pos`, the field counter `col`, the integer conversion base, the
last error, and the configuration (`delim`, `comment`, `allow_nan_inf`). -/
structure LineParser where
  buf : List Char
  pos : Nat
  col : Nat
  base : Nat
  last_error : RTError
  delim : Char
  comment : Char
  allow_nan_inf : Bool
deriving DecidableEq, Repr

/-- A space or tab, the blank characters recognized by the scanning loops
of `line_parser`. -/
def isBlankChar (c : Char) : Bool := c = ' ' || c = '\t'

/-- Number of leading blanks of a character list (the body of the
`for(;pos<len;pos++) if(!(buf[pos]==' '||buf[pos]=='\t')) break;` loops). -/
def countBlanks : List Char → Nat
  | [] => 0
  | c :: r => if isBlankChar c then countBlanks r + 1 else 0

/-- Position reached after skipping blanks starting from `pos`. -/
def skipBlanks (buf : List Char) (pos : Nat) : Nat :=
  pos + countBlanks (buf.drop pos)

/-- Length of the run before the next delimiter character (the scan loop of
`read_skip` in delimiter mode, which stops only at `delim`). -/
def countToDelim (delim : Char) : List Char → Nat
  | [] => 0
  | c :: r => if c = delim then 0 else countToDelim delim r + 1

/-- Length of the run before the next blank, newline or comment character
(the field-scanning loop of `read_string2` / `read_skip` without a
delimiter). -/
def countToBlankEtc (comment : Char) : List Char → Nat
  | [] => 0
  | c :: r =>
    if isBlankChar c ∨ c = '\n' ∨ (comment ≠ nullChar ∧ c = comment) then 0
    else countToBlankEtc comment r + 1

/-- Length of the run before the next delimiter, newline or comment
character (the field-scanning loop of `read_string2` in delimiter mode). -/
def countToDelimEtc (delim comment : Char) : List Char → Nat
  | [] => 0
  | c :: r =>
    if c = delim ∨ c = '\n' ∨ (comment ≠ nullChar ∧ c = comment) then 0
    else countToDelimEtc delim comment r + 1

/-! ## Model of the C conversion routines `strtol` / `strtoul` -/

/-- `LONG_MAX` on an LP64 platform. -/
def LONG_MAX : Int := 2 ^ 63 - 1
/-- `LONG_MIN` on an LP64 platform. -/
def LONG_MIN : Int := -(2 ^ 63)
/-- `ULONG_MAX` on an LP64 platform. -/
def ULONG_MAX : Nat := 2 ^ 64 - 1

/-- The characters accepted by C `isspace` in the default locale. -/
def isCSpaceChar (c : Char) : Bool :=
  c = ' ' || c = '\t' || c = '\n' || c = '\r' || c = Char.ofNat 11 || c = Char.ofNat 12

/-- Number of leading C whitespace characters (skipped by `strtol`). -/
def countCSpaces : List Char → Nat
  | [] => 0
  | c :: r => if isCSpaceChar c then countCSpaces r + 1 else 0

/-- Optional sign character at the start of the subject sequence:
returns (negative?, characters consumed). -/
def signSplit : List Char → Bool × Nat
  | [] => (false, 0)
  | c :: _ => if c = '-' then (true, 1) else if c = '+' then (false, 1) else (false, 0)

/-- Numeric value of a digit character for bases up to 36 (`0`-`9`,
`a`-`z`, `A`-`Z`), as accepted by `strtol`-family functions. -/
def digitVal (c : Char) : Option Nat :=
  if 48 ≤ c.toNat ∧ c.toNat ≤ 57 then some (c.toNat - 48)
  else if 97 ≤ c.toNat ∧ c.toNat ≤ 122 then some (c.toNat - 97 + 10)
  else if 65 ≤ c.toNat ∧ c.toNat ≤ 90 then some (c.toNat - 65 + 10)
  else none

/-- Whether `c` is a valid hexadecimal digit. -/
def isHexDigitCh (c : Char) : Bool :=
  match digitVal c with
  | some d => d < 16
  | none => false

/-- Base-prefix handling of `strtol`: for base 16 (or base 0) a leading
`0x` / `0X` is consumed when followed by a hexadecimal digit; base 0
auto-detects base 8 from a leading `0`, otherwise base 10. Returns the
effective base and the number of prefix characters consumed. -/
def basePfx (base : Nat) (s : List Char) : Nat × Nat :=
  if base = 16 then
    match s with
    | '0' :: x :: c :: _ => if (x = 'x' ∨ x = 'X') ∧ isHexDigitCh c then (16, 2) else (16, 0)
    | _ => (16, 0)
  else if base = 0 then
    match s with
    | '0' :: x :: c :: _ => if (x = 'x' ∨ x = 'X') ∧ isHexDigitCh c then (16, 2) else (8, 0)
    | '0' :: _ => (8, 0)
    | _ => (10, 0)
  else (base, 0)

/-- Accumulate digits valid in `base`: returns the accumulated magnitude
and the number of digit characters consumed. -/
def parseDigitsAux (base : Nat) : List Char → Nat → Nat → Nat × Nat
  | [], acc, cnt => (acc, cnt)
  | c :: r, acc, cnt =>
    match digitVal c with
    | some d => if d < base then parseDigitsAux base r (acc * base + d) (cnt + 1) else (acc, cnt)
    | none => (acc, cnt)

/-- Result of a C `strtol` call: the (possibly clamped) value, the offset
of the end pointer from the start of the string, and the `errno` outcome
(`ERANGE` / `EINVAL`). -/
structure CIntConv where
  value : Int
  consumed : Nat
  erange : Bool
  einval : Bool
deriving DecidableEq, Repr

/-- Result of a C `strtoul` call. -/
structure CUIntConv where
  value : Nat
  consumed : Nat
  erange : Bool
  einval : Bool
deriving DecidableEq, Repr

/-- Model of C `strtol` (64-bit `long`): skip C whitespace, optional sign,
optional base prefix, then digits; with no digits the end pointer equals
the start (`consumed = 0`); a value outside `[LONG_MIN, LONG_MAX]` is
clamped with `errno = ERANGE`; an unsupported base gives `EINVAL`. -/
def strtolModel (s : List Char) (base : Nat) : CIntConv :=
  if base ≠ 0 ∧ (base < 2 ∨ base > 36) then ⟨0, 0, false, true⟩
  else
    let nws := countCSpaces s
    let s1 := s.drop nws
    let sg := signSplit s1
    let s2 := s1.drop sg.2
    let bp := basePfx base s2
    let s3 := s2.drop bp.2
    let pd := parseDigitsAux bp.1 s3 0 0
    if pd.2 = 0 then ⟨0, 0, false, false⟩
    else
      let v : Int := if sg.1 then -(pd.1 : Int) else (pd.1 : Int)
      let n := nws + sg.2 + bp.2 + pd.2
      if v > LONG_MAX then ⟨LONG_MAX, n, true, false⟩
      else if v < LONG_MIN then ⟨LONG_MIN, n, true, false⟩
      else ⟨v, n, false, false⟩

/-- Model of C `strtoul` (64-bit `unsigned long`): like `strtolModel`, but
a magnitude above `ULONG_MAX` is clamped with `ERANGE`, and a leading `-`
silently negates the value modulo `2^64` (the behavior the source guards
against in its unsigned readers). -/
def strtoulModel (s : List Char) (base : Nat) : CUIntConv :=
  if base ≠ 0 ∧ (base < 2 ∨ base > 36) then ⟨0, 0, false, true⟩
  else
    let nws := countCSpaces s
    let s1 := s.drop nws
    let sg := signSplit s1
    let s2 := s1.drop sg.2
    let bp := basePfx base s2
    let s3 := s2.drop bp.2
    let pd := parseDigitsAux bp.1 s3 0 0
    if pd.2 = 0 then ⟨0, 0, false, false⟩
    else
      let n := nws + sg.2 + bp.2 + pd.2
      if pd.1 > ULONG_MAX then ⟨ULONG_MAX, n, true, false⟩
      else ⟨if sg.1 then (2 ^ 64 - pd.1 % 2 ^ 64) % 2 ^ 64 else pd.1, n, false, false⟩

/-! ## The tokenization checks of `line_parser` -/

/-- The error kinds that `read_table_pre_check` treats as sticky: a read
attempted in one of these states fails immediately, leaving the state
untouched. -/
def stickyErr (e : RTError) : Bool :=
  e = .T_EOF || e = .T_EOL || e = .T_COPIED || e = .T_READ_ERROR || e = .T_ERROR_FOPEN

/-- `line_parser::read_table_pre_check`: checks performed before a field
conversion. Skips blanks; fails with `T_EOL` at end of line / newline /
comment and with `T_MISSING` on an explicit delimiter; on failure the
position is restored when `advance_pos` is false. -/
def read_table_pre_check (lp : LineParser) (advance_pos : Bool) : Bool × LineParser :=
  if stickyErr lp.last_error then (false, lp)
  else
    let len := lp.buf.length
    let p := skipBlanks lp.buf lp.pos
    let c := lp.buf.getD p nullChar
    if p = len ∨ c = '\n' ∨ (lp.comment ≠ nullChar ∧ c = lp.comment) then
      (false, { lp with last_error := .T_EOL, pos := if advance_pos then p else lp.pos })
    else if lp.delim ≠ nullChar ∧ c = lp.delim then
      (false, { lp with last_error := .T_MISSING, pos := if advance_pos then p else lp.pos })
    else
      (true, { lp with pos := p })

/-- `line_parser::read_table_post_check`: checks performed after a number
conversion that ended at absolute position `c2`, with `einval` / `erange`
the `errno` outcome of the conversion. Skips trailing blanks; success at
end of line / newline / comment (without advancing the column counter);
otherwise without a delimiter at least one blank must separate the value
from the next token, and with a delimiter the next character must be the
delimiter (which is consumed); the column counter is incremented only on
these latter two success paths. -/
def read_table_post_check (lp : LineParser) (c2 : Nat) (einval erange : Bool) : Bool × LineParser :=
  if einval = true ∨ c2 = lp.pos then (false, { lp with last_error := .T_FORMAT })
  else if erange = true then (false, { lp with last_error := .T_OVERFLOW })
  else
    let len := lp.buf.length
    let p := skipBlanks lp.buf c2
    let lp1 := { lp with pos := p, last_error := RTError.T_OK }
    let c := lp.buf.getD p nullChar
    if p = len ∨ c = '\n' ∨ (lp.comment ≠ nullChar ∧ c = lp.comment) then (true, lp1)
    else if lp.delim = nullChar ∧ ¬ (c2 < p) then
      (false, { lp1 with last_error := .T_FORMAT })
    else if lp.delim ≠ nullChar then
      if c ≠ lp.delim then (false, { lp1 with last_error := .T_FORMAT })
      else (true, { lp1 with pos := p + 1, col := lp.col + 1 })
    else (true, { lp1 with col := lp.col + 1 })

/-! ## The reading operations of `line_parser` -/

/-- `line_parser::read_skip`: skip the next field. With a delimiter it
scans to the next delimiter and one position past it; without one it skips
blanks and then the non-blank run. Note: unlike the typed readers it
performs no sticky-error pre-check. -/
def read_skip (lp : LineParser) : Bool × LineParser :=
  let len := lp.buf.length
  if lp.delim ≠ nullChar then
    let p := lp.pos + countToDelim lp.delim (lp.buf.drop lp.pos)
    if p = len then (false, { lp with pos := p, last_error := .T_EOL })
    else (true, { lp with pos := p + 1, col := lp.col + 1, last_error := .T_OK })
  else
    let p := skipBlanks lp.buf lp.pos
    let c := lp.buf.getD p nullChar
    if p = len ∨ c = '\n' ∨ (lp.comment ≠ nullChar ∧ c = lp.comment) then
      (false, { lp with pos := p, last_error := .T_EOL })
    else
      let q := p + countToBlankEtc lp.comment (lp.buf.drop p)
      (true, { lp with pos := q, col := lp.col + 1, last_error := .T_OK })

/-- `line_parser::read_string2`: extract the next field as a
(start, length) pair into the line buffer. In delimiter mode an empty
field is allowed, only four of the five sticky kinds are pre-checked
(`T_COPIED` is not), and a field ending at the end of the line reports
success while setting `last_error = T_EOL` for the next read. Without a
delimiter the regular pre-check applies. -/
def read_string2 (lp : LineParser) (advance_pos : Bool) : Bool × Option (Nat × Nat) × LineParser :=
  let len := lp.buf.length
  let old_pos := lp.pos
  if lp.delim ≠ nullChar then
    if lp.last_error = .T_EOF ∨ lp.last_error = .T_EOL ∨
        lp.last_error = .T_READ_ERROR ∨ lp.last_error = .T_ERROR_FOPEN then
      (false, none, lp)
    else
      let p1 := lp.pos
      let p := lp.pos + countToDelimEtc lp.delim lp.comment (lp.buf.drop lp.pos)
      let lp1 :=
        if p < len ∧ lp.buf.getD p nullChar = lp.delim then { lp with pos := p + 1 }
        else { lp with pos := p, last_error := .T_EOL }
      (true, some (p1, p - p1), if advance_pos then lp1 else { lp1 with pos := old_pos })
  else
    let pc := read_table_pre_check lp advance_pos
    if pc.1 = false then (false, none, pc.2)
    else
      let p1 := pc.2.pos
      let p := p1 + countToBlankEtc lp.comment (lp.buf.drop p1)
      (true, some (p1, p - p1),
        if advance_pos then { pc.2 with pos := p } else { pc.2 with pos := old_pos })

/-- `line_parser::read_int32_limits` (the `int32_t` reader; on LP64 the
conversion itself is a 64-bit `strtol`). The in-out argument `i` is
modelled by passing its old value `i0` and returning the new value. On a
bounds violation the output is clamped by the two consecutive `if`
statements of the source. -/
def read_int32_limits (lp : LineParser) (i0 mn mx : Int) (advance_pos : Bool) :
    Bool × Int × LineParser :=
  let old_pos := lp.pos
  let pc := read_table_pre_check lp advance_pos
  if pc.1 = false then (false, i0, pc.2)
  else
    let lp1 := pc.2
    let r := strtolModel (lp1.buf.drop lp1.pos) lp1.base
    let c2 := lp1.pos + r.consumed
    let po := read_table_post_check lp1 c2 r.einval r.erange
    let out :=
      if po.1 then
        if r.value > mx ∨ r.value < mn then
          let i1 := if r.value > mx then mx else i0
          let i2 := if r.value < mn then mn else i1
          (false, i2, { po.2 with last_error := RTError.T_OVERFLOW })
        else (true, r.value, po.2)
      else (false, i0, po.2)
    (out.1, out.2.1, if advance_pos then out.2.2 else { out.2.2 with pos := old_pos })

/-- `line_parser::read_int64_limits` with the LP64 `use_long = true`
branch resolved: identical to the 32-bit reader except for the caller's
bounds. -/
def read_int64_limits (lp : LineParser) (i0 mn mx : Int) (advance_pos : Bool) :
    Bool × Int × LineParser :=
  let old_pos := lp.pos
  let pc := read_table_pre_check lp advance_pos
  if pc.1 = false then (false, i0, pc.2)
  else
    let lp1 := pc.2
    let r := strtolModel (lp1.buf.drop lp1.pos) lp1.base
    let c2 := lp1.pos + r.consumed
    let po := read_table_post_check lp1 c2 r.einval r.erange
    let out :=
      if po.1 then
        if r.value > mx ∨ r.value < mn then
          let i1 := if r.value > mx then mx else i0
          let i2 := if r.value < mn then mn else i1
          (false, i2, { po.2 with last_error := RTError.T_OVERFLOW })
        else (true, r.value, po.2)
      else (false, i0, po.2)
    (out.1, out.2.1, if advance_pos then out.2.2 else { out.2.2 with pos := old_pos })

/-- C `isalnum` in the default locale (ASCII letters and digits). -/
def charIsAlnum (c : Char) : Bool := c.isDigit || c.isAlpha

/-- `line_parser::read_uint32_limits`: before converting, the first
character of the field must be alphanumeric or `+`; a leading `-` fails
with `T_OVERFLOW` (rather than letting `strtoul` silently negate), any
other character with `T_FORMAT`, and in both cases the output is set
to 0. -/
def read_uint32_limits (lp : LineParser) (i0 mn mx : Nat) (advance_pos : Bool) :
    Bool × Nat × LineParser :=
  let old_pos := lp.pos
  let pc := read_table_pre_check lp advance_pos
  if pc.1 = false then (false, i0, pc.2)
  else
    let lp1 := pc.2
    let c := lp1.buf.getD lp1.pos nullChar
    if ¬ (charIsAlnum c = true ∨ c = '+') then
      let e := if c = '-' then RTError.T_OVERFLOW else RTError.T_FORMAT
      let lp2 := { lp1 with last_error := e }
      (false, 0, if advance_pos then lp2 else { lp2 with pos := old_pos })
    else
      let r := strtoulModel (lp1.buf.drop lp1.pos) lp1.base
      let c2 := lp1.pos + r.consumed
      let po := read_table_post_check lp1 c2 r.einval r.erange
      let out :=
        if po.1 then
          if r.value > mx ∨ r.value < mn then
            let i1 := if r.value > mx then mx else i0
            let i2 := if r.value < mn then mn else i1
            (false, i2, { po.2 with last_error := RTError.T_OVERFLOW })
          else (true, r.value, po.2)
        else (false, i0, po.2)
      (out.1, out.2.1, if advance_pos then out.2.2 else { out.2.2 with pos := old_pos })

/-- `line_parser::read_uint64_limits` with the LP64 `use_ulong = true`
branch resolved: identical to the 32-bit unsigned reader except for the
caller's bounds. -/
def read_uint64_limits (lp : LineParser) (i0 mn mx : Nat) (advance_pos : Bool) :
    Bool × Nat × LineParser :=
  let old_pos := lp.pos
  let pc := read_table_pre_check lp advance_pos
  if pc.1 = false then (false, i0, pc.2)
  else
    let lp1 := pc.2
    let c := lp1.buf.getD lp1.pos nullChar
    if ¬ (charIsAlnum c = true ∨ c = '+') then
      let e := if c = '-' then RTError.T_OVERFLOW else RTError.T_FORMAT
      let lp2 := { lp1 with last_error := e }
      (false, 0, if advance_pos then lp2 else { lp2 with pos := old_pos })
    else
      let r := strtoulModel (lp1.buf.drop lp1.pos) lp1.base
      let c2 := lp1.pos + r.consumed
      let po := read_table_post_check lp1 c2 r.einval r.erange
      let out :=
        if po.1 then
          if r.value > mx ∨ r.value < mn then
            let i1 := if r.value > mx then mx else i0
            let i2 := if r.value < mn then mn else i1
            (false, i2, { po.2 with last_error := RTError.T_OVERFLOW })
          else (true, r.value, po.2)
        else (false, i0, po.2)
      (out.1, out.2.1, if advance_pos then out.2.2 else { out.2.2 with pos := old_pos })

/-- The observable outcome of a C `strtod` call used by `read_double`:
only the control-flow-relevant data are modelled (characters consumed,
`errno`, and whether the value is NaN / infinite); the floating-point
value itself is outside the scope of this embedding. -/
structure CDoubleConv where
  consumed : Nat
  isnan : Bool
  isinf : Bool
  erange : Bool
  einval : Bool
deriving DecidableEq, Repr

/-- The state transition of `line_parser::read_double`, parameterized by
the outcome `r` of the `strtod` call (the parsed value is not modelled).
On success with `allow_nan_inf` disabled a NaN / infinite value fails with
`T_NAN`. -/
def read_double_shape (lp : LineParser) (r : CDoubleConv) (advance_pos : Bool) :
    Bool × LineParser :=
  let old_pos := lp.pos
  let pc := read_table_pre_check lp advance_pos
  if pc.1 = false then (false, pc.2)
  else
    let lp1 := pc.2
    let c2 := lp1.pos + r.consumed
    let po := read_table_post_check lp1 c2 r.einval r.erange
    let out :=
      if po.1 ∧ lp1.allow_nan_inf = false then
        if r.isnan ∨ r.isinf then (false, { po.2 with last_error := RTError.T_NAN })
        else (po.1, po.2)
      else (po.1, po.2)
    (out.1, if advance_pos then out.2 else { out.2 with pos := old_pos })

/-- `line_parser` move assignment (`operator=(line_parser&&)`): returns
(new destination, new source). The source's string is moved out (left
empty) and the source is invalidated (`T_COPIED`, position and column 0).
Note the member-wise copies of the source: `buf`, `pos`, `col`, `base`,
`comment`, `allow_nan_inf`, `last_error` — the `delim` member is NOT
copied, so the destination keeps its previous delimiter. -/
def line_parser_move_assign (dst src : LineParser) : LineParser × LineParser :=
  ( { buf := src.buf, pos := src.pos, col := src.col, base := src.base,
      comment := src.comment, allow_nan_inf := src.allow_nan_inf,
      last_error := src.last_error, delim := dst.delim },
    { src with buf := [], last_error := .T_COPIED, pos := 0, col := 0 } )

/-- A `line_parser` constructed with default parameters whose line was set
to `buf` (constructor plus `set_line`): position, column 0, no delimiter,
no comment character, base 10, `last_error = T_OK`. -/
def lineParserOfLine (buf : List Char) : LineParser :=
  { buf := buf, pos := 0, col := 0, base := 10, last_error := .T_OK,
    delim := nullChar, comment := nullChar, allow_nan_inf := true }

/-- Like `lineParserOfLine` but with a delimiter character configured. -/
def lineParserOfLineDelim (buf : List Char) (d : Char) : LineParser :=
  { lineParserOfLine buf with delim := d }

/-! ## The line-acquisition state machine of `read_table2` -/

/-- Model of the `std::istream` the `read_table2` class reads from: the
remaining lines (as returned by `std::getline`, i.e. without the `'\n'`
terminator but with a possible trailing `'\r'`), whether the source ends
with a newline, and the stream state flags. -/
structure IStreamModel where
  lines : List (List Char)
  finalNewline : Bool
  eofbit : Bool
  failbit : Bool
deriving DecidableEq, Repr

/-- `std::getline(is, buf)`: if the stream is already in a failed or
end-of-file state the sentry fails, setting `failbit` and leaving `buf`
unchanged; with no characters left `eofbit` and `failbit` are set and
`buf` is erased; otherwise the next line is extracted (`eofbit` is set
when the source's final line has no terminating newline). -/
def istreamGetline (is : IStreamModel) (buf : List Char) : IStreamModel × List Char :=
  if is.eofbit ∨ is.failbit then ({ is with failbit := true }, buf)
  else
    match is.lines with
    | [] => ({ is with eofbit := true, failbit := true }, [])
    | [l] =>
      if is.finalNewline then ({ is with lines := [] }, l)
      else ({ is with lines := [], eofbit := true }, l)
    | l :: rest => ({ is with lines := rest }, l)

/-- State of the `read_table2` class: the inherited `line_parser`, the
input stream and the current line number. -/
structure ReadTable2 where
  lp : LineParser
  is : IStreamModel
  line : Nat
deriving DecidableEq, Repr

/-- Strip one trailing `'\n'` or `'\r'` from the line, as the
`line_endings` loop at the end of `read_table2::read_line` does. -/
def stripEol (l : List Char) : List Char :=
  if l ≠ [] ∧ (l.getLast? = some '\n' ∨ l.getLast? = some '\r') then l.dropLast else l

/-- On success `read_line` resets the column counter, sets `T_OK` and
strips the line terminator. -/
def read_line_finish (rt : ReadTable2) : Bool × ReadTable2 :=
  (true, { rt with lp := { rt.lp with col := 0, last_error := .T_OK, buf := stripEol rt.lp.buf } })

/-- A `getline` call that leaves the stream in a good state consumed one
of the remaining lines (used for termination of the fetch loop). -/
theorem istreamGetline_dec (is : IStreamModel) (b : List Char)
    (h1 : (istreamGetline is b).1.eofbit = false)
    (h2 : (istreamGetline is b).1.failbit = false) :
    (istreamGetline is b).1.lines.length < is.lines.length := by
  obtain ⟨lines, fn, eb, fb⟩ := is
  cases eb <;> cases fb <;> simp [istreamGetline] at h1 h2 ⊢ <;>
    rcases lines with _ | ⟨l, ls⟩ <;> simp_all <;>
    rcases ls with _ | ⟨l2, ls2⟩ <;> simp_all <;> cases fn <;> simp_all

/-- The `while(1)` loop of `read_table2::read_line`: fetch a line with
`getline`, fail with `T_EOF` / `T_READ_ERROR` on stream end / error; with
`skip` set, entirely blank lines and lines holding only a comment are
fetched again; with a delimiter configured, leading whitespace of the
accepted line is not skipped. -/
def read_line_loop (rt : ReadTable2) (skip : Bool) : Bool × ReadTable2 :=
  let g := istreamGetline rt.is rt.lp.buf
  if he : g.1.eofbit then
    (false, { rt with is := g.1, lp := { rt.lp with last_error := .T_EOF, buf := g.2 } })
  else if hf : g.1.failbit then
    (false, { rt with is := g.1, lp := { rt.lp with last_error := .T_READ_ERROR, buf := g.2 } })
  else
    let len := g.2.length
    let rt1 : ReadTable2 :=
      { rt with is := g.1, line := rt.line + 1, lp := { rt.lp with buf := g.2, pos := 0 } }
    if skip then
      let p := skipBlanks g.2 0
      if h : p < len then
        if rt1.lp.comment ≠ nullChar ∧ g.2.getD p nullChar = rt1.lp.comment then
          read_line_loop { rt1 with lp := { rt1.lp with pos := p } } skip
        else if rt1.lp.delim ≠ nullChar then
          read_line_finish { rt1 with lp := { rt1.lp with pos := 0 } }
        else read_line_finish { rt1 with lp := { rt1.lp with pos := p } }
      else read_line_loop { rt1 with lp := { rt1.lp with pos := p } } skip
    else read_line_finish rt1
termination_by rt.is.lines.length
decreasing_by
  all_goals
    exact istreamGetline_dec rt.is rt.lp.buf (Bool.not_eq_true _ ▸ he) (Bool.not_eq_true _ ▸ hf)

/-- `read_table2::read_line`: guarded by the unrecoverable error kinds
(`T_EOF`, `T_COPIED`, `T_ERROR_FOPEN` — note `T_READ_ERROR` is absent from
this list) and by an `is->eof()` check, then runs the fetch loop. -/
def read_line (rt : ReadTable2) (skip : Bool) : Bool × ReadTable2 :=
  if rt.lp.last_error = .T_EOF ∨ rt.lp.last_error = .T_COPIED ∨
      rt.lp.last_error = .T_ERROR_FOPEN then (false, rt)
  else if rt.is.eofbit then (false, { rt with lp := { rt.lp with last_error := .T_EOF } })
  else read_line_loop rt skip

/-! ## The variadic `read(ops...)` combinator -/

/-- One typed read request of the variadic `line_parser::read` call, as a
closed datatype (`read_next` template specializations used by the claims:
bounded 32-bit signed / unsigned reads and `read_table_skip_t`). -/
inductive ReadOp where
  | opInt32 (mn mx : Int)
  | opUint32 (mn mx : Nat)
  | opSkip
deriving DecidableEq, Repr

/-- `read_next(val, true)` for one operation: returns the success flag,
the value written to the output location (if any) and the new state. -/
def applyOp (op : ReadOp) (lp : LineParser) : Bool × Option Int × LineParser :=
  match op with
  | .opInt32 mn mx =>
    let r := read_int32_limits lp 0 mn mx true
    (r.1, some r.2.1, r.2.2)
  | .opUint32 mn mx =>
    let r := read_uint32_limits lp 0 mn mx true
    (r.1, some (r.2.1 : Int), r.2.2)
  | .opSkip =>
    let r := read_skip lp
    (r.1, none, r.2)

/-- The recursive variadic `line_parser::read(first, rest...)`: apply each
operation left to right, stopping at the first failure. The returned list
collects the outputs assigned by the successful operations, in order. -/
def readSeq : LineParser → List ReadOp → Bool × LineParser × List Int
  | lp, [] => (true, lp, [])
  | lp, op :: rest =>
    let r := applyOp op lp
    if r.1 then
      let s := readSeq r.2.2 rest
      (s.1, s.2.1, r.2.1.toList ++ s.2.2)
    else (false, r.2.2, [])

/-! ## Helper lemmas -/

theorem char_ne_of_toNat {c d : Char} (h : c.toNat ≠ d.toNat) : c ≠ d :=
  fun he => h (by rw [he])

theorem countBlanks_le (l : List Char) : countBlanks l ≤ l.length := by
  induction l with
  | nil => simp [countBlanks]
  | cons c r ih =>
    simp only [List.length_cons]
    unfold countBlanks
    split <;> omega

theorem skipBlanks_ge (buf : List Char) (pos : Nat) : pos ≤ skipBlanks buf pos :=
  Nat.le_add_right _ _

theorem skipBlanks_le {buf : List Char} {pos : Nat} (h : pos ≤ buf.length) :
    skipBlanks buf pos ≤ buf.length := by
  have h1 := countBlanks_le (buf.drop pos)
  simp only [List.length_drop] at h1
  unfold skipBlanks
  omega

theorem skipBlanks_of_ge {buf : List Char} {pos : Nat} (h : buf.length ≤ pos) :
    skipBlanks buf pos = pos := by
  unfold skipBlanks
  rw [List.drop_eq_nil_of_le h]
  simp [countBlanks]

theorem getD_drop (l : List Char) (n k : Nat) :
    (l.drop n).getD k nullChar = l.getD (n + k) nullChar := by
  simp [List.getD_eq_getElem?_getD, List.getElem?_drop]

theorem countBlanks_cons_blank {c : Char} {r : List Char} (h : isBlankChar c = true) :
    countBlanks (c :: r) = countBlanks r + 1 := by simp [countBlanks, h]

theorem countBlanks_cons_not {c : Char} {r : List Char} (h : isBlankChar c = false) :
    countBlanks (c :: r) = 0 := by simp [countBlanks, h]

theorem countBlanks_getD_not_blank (l : List Char) (h : countBlanks l < l.length) :
    isBlankChar (l.getD (countBlanks l) nullChar) = false := by
  induction l with
  | nil => simp at h
  | cons c r ih =>
    by_cases hb : isBlankChar c
    · rw [countBlanks_cons_blank hb] at h ⊢
      simp only [List.getD_cons_succ]
      exact ih (by simpa using h)
    · rw [countBlanks_cons_not (by simpa using hb)]
      simpa using hb

theorem skipBlanks_not_blank {buf : List Char} {pos : Nat} (h : skipBlanks buf pos < buf.length) :
    isBlankChar (buf.getD (skipBlanks buf pos) nullChar) = false := by
  unfold skipBlanks at *
  rw [← getD_drop]
  apply countBlanks_getD_not_blank
  have := countBlanks_le (buf.drop pos)
  simp only [List.length_drop] at *
  omega

theorem skipBlanks_eq_self {buf : List Char} {pos : Nat} (h : pos < buf.length)
    (hc : isBlankChar (buf.getD pos nullChar) = false) : skipBlanks buf pos = pos := by
  unfold skipBlanks
  cases hd : buf.drop pos with
  | nil => simp [countBlanks]
  | cons c r =>
    have hce : c = buf.getD pos nullChar := by
      have h0 := getD_drop buf pos 0
      rw [hd] at h0
      simpa using h0
    rw [countBlanks_cons_not (hce ▸ hc)]
    omega

theorem pre_check_sticky {lp : LineParser} (adv : Bool) (h : stickyErr lp.last_error = true) :
    read_table_pre_check lp adv = (false, lp) := by
  simp [read_table_pre_check, h]

theorem pre_check_buf (lp : LineParser) (adv : Bool) :
    (read_table_pre_check lp adv).2.buf = lp.buf := by
  simp only [read_table_pre_check]
  split_ifs <;> rfl

theorem pre_check_false_pos {lp : LineParser}
    (h : (read_table_pre_check lp false).1 = false) :
    (read_table_pre_check lp false).2.pos = lp.pos := by
  simp only [read_table_pre_check] at *
  split_ifs at * <;> simp_all

theorem post_check_buf (lp : LineParser) (c2 : Nat) (a b : Bool) :
    (read_table_post_check lp c2 a b).2.buf = lp.buf := by
  simp only [read_table_post_check]
  split_ifs <;> rfl

theorem post_check_true_T_OK {lp : LineParser} {c2 : Nat} {a b : Bool}
    (h : (read_table_post_check lp c2 a b).1 = true) :
    (read_table_post_check lp c2 a b).2.last_error = RTError.T_OK := by
  simp only [read_table_post_check] at *
  split_ifs at * <;> simp_all

/-! ## Claim C1 — sticky terminal errors block further reads -/

/-- C1 (amended): for every cursor whose `last_error` is one of the sticky
terminal kinds (`T_EOF`, `T_COPIED`, `T_ERROR_FOPEN`, `T_READ_ERROR`),
every typed field read fails immediately with the state (including
`last_error`, `pos` and `col`) completely unchanged; string reads likewise,
except that in delimiter mode the `T_COPIED` kind is not checked. (The
claim's further assertion that `read_skip` behaves this way is refuted by
the counterexample.) -/
theorem c1_sticky_reads_no_op (lp : LineParser) (i0 mn mx : Int) (u0 un ux : Nat)
    (adv : Bool) (r : CDoubleConv)
    (h : lp.last_error = .T_EOF ∨ lp.last_error = .T_COPIED ∨
      lp.last_error = .T_ERROR_FOPEN ∨ lp.last_error = .T_READ_ERROR) :
    read_int32_limits lp i0 mn mx adv = (false, i0, lp) ∧
    read_int64_limits lp i0 mn mx adv = (false, i0, lp) ∧
    read_uint32_limits lp u0 un ux adv = (false, u0, lp) ∧
    read_uint64_limits lp u0 un ux adv = (false, u0, lp) ∧
    read_double_shape lp r adv = (false, lp) ∧
    (lp.delim = nullChar → read_string2 lp adv = (false, none, lp)) ∧
    (lp.last_error ≠ .T_COPIED → read_string2 lp adv = (false, none, lp)) := by
  have hs : stickyErr lp.last_error = true := by
    rcases h with h | h | h | h <;> simp [stickyErr, h]
  have hpc := pre_check_sticky adv hs
  refine ⟨?_, ?_, ?_, ?_, ?_, ?_, ?_⟩
  · simp [read_int32_limits, hpc]
  · simp [read_int64_limits, hpc]
  · simp [read_uint32_limits, hpc]
  · simp [read_uint64_limits, hpc]
  · simp [read_double_shape, hpc]
  · intro hd
    simp [read_string2, hd, hpc]
  · intro hnc
    by_cases hd : lp.delim = nullChar
    · simp [read_string2, hd, hpc]
    · have h4 : lp.last_error = .T_EOF ∨ lp.last_error = .T_EOL ∨
          lp.last_error = .T_READ_ERROR ∨ lp.last_error = .T_ERROR_FOPEN := by
        rcases h with h | h | h | h <;> simp_all
      simp only [read_string2]
      rw [if_pos hd, if_pos h4]

/-- C1 witness: a cursor in the `T_EOF` state rejects a typed read as a
complete no-op. -/
theorem c1_sticky_reads_no_op_witness :
    read_int32_limits { lineParserOfLine ['a'] with last_error := RTError.T_EOF } 0 0 5 true
      = (false, 0, { lineParserOfLine ['a'] with last_error := RTError.T_EOF }) :=
  (c1_sticky_reads_no_op { lineParserOfLine ['a'] with last_error := RTError.T_EOF }
    0 0 5 0 0 5 true ⟨0, false, false, false, false⟩ (Or.inl rfl)).1

/-- C1 counterexample: `read_skip` performs no sticky-state check. On a
cursor with sticky `last_error = T_EOF` and a nonempty line it scans,
succeeds, resets the error to `T_OK` and moves the position — the claim
says every skip must fail immediately with the same error kind and leave
the position unchanged. -/
theorem c1_read_skip_not_sticky :
    (read_skip { lineParserOfLine ['a', 'b'] with last_error := RTError.T_EOF }).1 = true ∧
    (read_skip { lineParserOfLine ['a', 'b'] with last_error := RTError.T_EOF }).2.last_error
      = RTError.T_OK ∧
    (read_skip { lineParserOfLine ['a', 'b'] with last_error := RTError.T_EOF }).2.pos ≠ 0 := by
  decide

/-! ## Claim C5 — non-advancing (peek) reads -/

/-- C5 (amended): every read called with `advance_pos = false` leaves the
cursor's position and line buffer unchanged, whatever the outcome. (The
claim's further assertion that the column is also unchanged is refuted by
the counterexample: `col` is incremented by a successful peek whose field
is followed by further content.) -/
theorem c5_peek_preserves_pos_and_buf (lp : LineParser) (i0 mn mx : Int)
    (u0 un ux : Nat) (r : CDoubleConv) :
    ((read_int32_limits lp i0 mn mx false).2.2.pos = lp.pos ∧
      (read_int32_limits lp i0 mn mx false).2.2.buf = lp.buf) ∧
    ((read_int64_limits lp i0 mn mx false).2.2.pos = lp.pos ∧
      (read_int64_limits lp i0 mn mx false).2.2.buf = lp.buf) ∧
    ((read_uint32_limits lp u0 un ux false).2.2.pos = lp.pos ∧
      (read_uint32_limits lp u0 un ux false).2.2.buf = lp.buf) ∧
    ((read_uint64_limits lp u0 un ux false).2.2.pos = lp.pos ∧
      (read_uint64_limits lp u0 un ux false).2.2.buf = lp.buf) ∧
    ((read_double_shape lp r false).2.pos = lp.pos ∧
      (read_double_shape lp r false).2.buf = lp.buf) ∧
    ((read_string2 lp false).2.2.pos = lp.pos ∧
      (read_string2 lp false).2.2.buf = lp.buf) := by
  have hf : (false = true) = False := by simp
  refine ⟨⟨?_, ?_⟩, ⟨?_, ?_⟩, ⟨?_, ?_⟩, ⟨?_, ?_⟩, ⟨?_, ?_⟩, ⟨?_, ?_⟩⟩
  · simp only [read_int32_limits]
    by_cases h : (read_table_pre_check lp false).1 = false
    · rw [if_pos h]; exact pre_check_false_pos h
    · rw [if_neg h]; simp only [hf, if_false]
  · simp only [read_int32_limits]
    by_cases h : (read_table_pre_check lp false).1 = false
    · rw [if_pos h]; exact pre_check_buf lp false
    · rw [if_neg h]; simp only [hf, if_false]
      split_ifs <;> simp [post_check_buf, pre_check_buf]
  · simp only [read_int64_limits]
    by_cases h : (read_table_pre_check lp false).1 = false
    · rw [if_pos h]; exact pre_check_false_pos h
    · rw [if_neg h]; simp only [hf, if_false]
  · simp only [read_int64_limits]
    by_cases h : (read_table_pre_check lp false).1 = false
    · rw [if_pos h]; exact pre_check_buf lp false
    · rw [if_neg h]; simp only [hf, if_false]
      split_ifs <;> simp [post_check_buf, pre_check_buf]
  · simp only [read_uint32_limits]
    by_cases h : (read_table_pre_check lp false).1 = false
    · rw [if_pos h]; exact pre_check_false_pos h
    · rw [if_neg h]; simp only [hf, if_false]
      split_ifs <;> rfl
  · simp only [read_uint32_limits]
    by_cases h : (read_table_pre_check lp false).1 = false
    · rw [if_pos h]; exact pre_check_buf lp false
    · rw [if_neg h]; simp only [hf, if_false]
      split_ifs <;> simp [post_check_buf, pre_check_buf]
  · simp only [read_uint64_limits]
    by_cases h : (read_table_pre_check lp false).1 = false
    · rw [if_pos h]; exact pre_check_false_pos h
    · rw [if_neg h]; simp only [hf, if_false]
      split_ifs <;> rfl
  · simp only [read_uint64_limits]
    by_cases h : (read_table_pre_check lp false).1 = false
    · rw [if_pos h]; exact pre_check_buf lp false
    · rw [if_neg h]; simp only [hf, if_false]
      split_ifs <;> simp [post_check_buf, pre_check_buf]
  · simp only [read_double_shape]
    by_cases h : (read_table_pre_check lp false).1 = false
    · rw [if_pos h]; exact pre_check_false_pos h
    · rw [if_neg h]; simp only [hf, if_false]
  · simp only [read_double_shape]
    by_cases h : (read_table_pre_check lp false).1 = false
    · rw [if_pos h]; exact pre_check_buf lp false
    · rw [if_neg h]; simp only [hf, if_false]
      split_ifs <;> simp [post_check_buf, pre_check_buf]
  · simp only [read_string2]
    by_cases hd : lp.delim ≠ nullChar
    · rw [if_pos hd]
      split_ifs <;> simp_all
    · rw [if_neg hd]
      by_cases h : (read_table_pre_check lp false).1 = false
      · rw [if_pos h]; exact pre_check_false_pos h
      · rw [if_neg h]; simp only [hf, if_false]
  · simp only [read_string2]
    by_cases hd : lp.delim ≠ nullChar
    · rw [if_pos hd]
      split_ifs <;> simp_all
    · rw [if_neg hd]
      by_cases h : (read_table_pre_check lp false).1 = false
      · rw [if_pos h]; exact pre_check_buf lp false
      · rw [if_neg h]; simp only [hf, if_false]
        simp [pre_check_buf]

/-- C5 counterexample: a successful non-advancing `read_int32` on the line
`"1 2"` restores the position but increments `col` from 0 to 1, so the
column is not unchanged as the claim states. -/
theorem c5_peek_changes_col :
    (read_int32_limits (lineParserOfLine ['1', ' ', '2']) 0 (-(2 ^ 31)) (2 ^ 31 - 1) false).1
      = true ∧
    (read_int32_limits (lineParserOfLine ['1', ' ', '2']) 0 (-(2 ^ 31)) (2 ^ 31 - 1) false).2.2.col
      ≠ (lineParserOfLine ['1', ' ', '2']).col := by
  decide

/-! ## Claim C4 — success resets `last_error` to `T_OK` -/

set_option maxHeartbeats 1000000 in
/-- C4 (amended): typed numeric reads and `read_skip` that return success
leave `last_error = T_OK` (they always set `last_error` when they run to
completion). String reads are the exception refuted by the counterexample:
`read_string2` can report success while leaving `last_error = T_EOL` (a
delimiter-mode field at the end of the line) or a stale previous value. -/
theorem c4_success_sets_T_OK (lp : LineParser) (i0 mn mx : Int) (u0 un ux : Nat)
    (r : CDoubleConv) (adv : Bool) :
    ((read_int32_limits lp i0 mn mx adv).1 = true →
      (read_int32_limits lp i0 mn mx adv).2.2.last_error = RTError.T_OK) ∧
    ((read_int64_limits lp i0 mn mx adv).1 = true →
      (read_int64_limits lp i0 mn mx adv).2.2.last_error = RTError.T_OK) ∧
    ((read_uint32_limits lp u0 un ux adv).1 = true →
      (read_uint32_limits lp u0 un ux adv).2.2.last_error = RTError.T_OK) ∧
    ((read_uint64_limits lp u0 un ux adv).1 = true →
      (read_uint64_limits lp u0 un ux adv).2.2.last_error = RTError.T_OK) ∧
    ((read_skip lp).1 = true → (read_skip lp).2.last_error = RTError.T_OK) ∧
    ((read_double_shape lp r adv).1 = true →
      (read_double_shape lp r adv).2.last_error = RTError.T_OK) := by
  refine ⟨?_, ?_, ?_, ?_, ?_, ?_⟩ <;> intro h
  · simp only [read_int32_limits] at h ⊢
    split_ifs at h ⊢ <;> simp_all [post_check_true_T_OK]
  · simp only [read_int64_limits] at h ⊢
    split_ifs at h ⊢ <;> simp_all [post_check_true_T_OK]
  · simp only [read_uint32_limits] at h ⊢
    split_ifs at h ⊢ <;> simp_all [post_check_true_T_OK]
  · simp only [read_uint64_limits] at h ⊢
    split_ifs at h ⊢ <;> simp_all [post_check_true_T_OK]
  · simp only [read_skip] at h ⊢
    split_ifs at h ⊢ <;> simp_all
  · simp only [read_double_shape] at h ⊢
    split_ifs at h ⊢ <;> simp_all [post_check_true_T_OK]

/-- C4 witness: a successful `read_int32` of the line `"5"` leaves
`last_error = T_OK`. -/
theorem c4_success_sets_T_OK_witness :
    (read_int32_limits (lineParserOfLine ['5']) 0 0 9 true).2.2.last_error = RTError.T_OK :=
  (c4_success_sets_T_OK (lineParserOfLine ['5']) 0 0 9 0 0 9
    ⟨0, false, false, false, false⟩ true).1 (by decide)

/-- C4 counterexample: in delimiter mode a string read of a field that
ends at the end of the line returns success yet sets
`last_error = T_EOL`, so a read that ran to completion successfully does
not leave `last_error = T_OK`. -/
theorem c4_string_success_not_T_OK :
    (read_string2 (lineParserOfLineDelim ['a', 'b'] ',') true).1 = true ∧
    (read_string2 (lineParserOfLineDelim ['a', 'b'] ',') true).2.2.last_error
      = RTError.T_EOL := by
  decide

/-! ## Claim C7 — `MissingValue` on an explicitly empty delimited field -/

theorem pre_check_err_cases (lp : LineParser) (adv : Bool) :
    (read_table_pre_check lp adv).2.last_error = lp.last_error ∨
    (read_table_pre_check lp adv).2.last_error = RTError.T_EOL ∨
    ((read_table_pre_check lp adv).2.last_error = RTError.T_MISSING ∧ lp.delim ≠ nullChar) := by
  simp only [read_table_pre_check]
  split_ifs with h1 h2 h3 <;> simp_all

theorem post_check_err_cases (lp : LineParser) (c2 : Nat) (a b : Bool) :
    (read_table_post_check lp c2 a b).2.last_error = RTError.T_FORMAT ∨
    (read_table_post_check lp c2 a b).2.last_error = RTError.T_OVERFLOW ∨
    (read_table_post_check lp c2 a b).2.last_error = RTError.T_OK := by
  simp only [read_table_post_check]
  split_ifs <;> simp

theorem pre_check_no_missing {lp : LineParser} (adv : Bool) (hd : lp.delim = nullChar)
    (hne : lp.last_error ≠ RTError.T_MISSING) :
    (read_table_pre_check lp adv).2.last_error ≠ RTError.T_MISSING := by
  rcases pre_check_err_cases lp adv with h | h | h
  · rw [h]; exact hne
  · rw [h]; simp
  · exact absurd hd h.2

theorem post_check_no_missing (lp : LineParser) (c2 : Nat) (a b : Bool) :
    (read_table_post_check lp c2 a b).2.last_error ≠ RTError.T_MISSING := by
  rcases post_check_err_cases lp c2 a b with h | h | h <;> rw [h] <;> simp

set_option maxHeartbeats 1000000 in
/-- C7: with a delimiter configured, a typed field read whose first
character after skipping blanks is the delimiter fails with `T_MISSING`
(MissingValue); in whitespace-run mode (`delim = 0`) no unsigned read ever
produces `T_MISSING`; and in the scenario with delimiter `,` and line
`"1,,3"` read as three `uint32` fields, the second field fails with
`T_MISSING` after the first was stored. -/
theorem c7_missing_value (lp : LineParser) (i0 un ux : Nat) (adv : Bool)
    (hOK : lp.last_error = RTError.T_OK) (hdl : lp.delim ≠ nullChar)
    (hp : skipBlanks lp.buf lp.pos < lp.buf.length)
    (hc : lp.buf.getD (skipBlanks lp.buf lp.pos) nullChar = lp.delim)
    (hnl : lp.delim ≠ '\n') (hcm : lp.comment ≠ lp.delim ∨ lp.comment = nullChar) :
    (read_uint32_limits lp i0 un ux adv).1 = false ∧
    (read_uint32_limits lp i0 un ux adv).2.2.last_error = RTError.T_MISSING ∧
    (∀ lp2 : LineParser, ∀ j0 jn jx : Nat, ∀ adv2 : Bool,
      lp2.delim = nullChar → lp2.last_error ≠ RTError.T_MISSING →
      (read_uint32_limits lp2 j0 jn jx adv2).2.2.last_error ≠ RTError.T_MISSING) ∧
    readSeq (lineParserOfLineDelim ['1', ',', ',', '3'] ',')
        [.opUint32 0 (2 ^ 32 - 1), .opUint32 0 (2 ^ 32 - 1), .opUint32 0 (2 ^ 32 - 1)]
      = (false, { lineParserOfLineDelim ['1', ',', ',', '3'] ',' with
          pos := 2, col := 1, last_error := RTError.T_MISSING }, [1]) := by
  have h1 : stickyErr lp.last_error = false := by rw [hOK]; decide
  have h2 : ¬(skipBlanks lp.buf lp.pos = lp.buf.length ∨
      lp.buf.getD (skipBlanks lp.buf lp.pos) nullChar = '\n' ∨
      (lp.comment ≠ nullChar ∧
        lp.buf.getD (skipBlanks lp.buf lp.pos) nullChar = lp.comment)) := by
    rintro (he | he | ⟨hcm2, he⟩)
    · omega
    · rw [hc] at he; exact hnl he
    · rw [hc] at he
      rcases hcm with h3 | h3
      · exact h3 he.symm
      · exact hcm2 h3
  have h3 : lp.delim ≠ nullChar ∧
      lp.buf.getD (skipBlanks lp.buf lp.pos) nullChar = lp.delim := ⟨hdl, hc⟩
  have hpre : read_table_pre_check lp adv = (false,
      { lp with
          last_error := RTError.T_MISSING,
          pos := if adv then skipBlanks lp.buf lp.pos else lp.pos }) := by
    simp only [read_table_pre_check, h1, Bool.false_eq_true, if_false, if_neg h2, if_pos h3]
  refine ⟨?_, ?_, ?_, ?_⟩
  · simp [read_uint32_limits, hpre]
  · simp [read_uint32_limits, hpre]
  · intro lp2 j0 jn jx adv2 hd hne
    simp only [read_uint32_limits]
    split_ifs <;>
      first
        | exact pre_check_no_missing adv2 hd hne
        | exact post_check_no_missing _ _ _ _
        | simp
  · decide

/-- C7 witness: a cursor standing on its delimiter fails the typed read
with `T_MISSING`. -/
theorem c7_missing_value_witness :
    (read_uint32_limits (lineParserOfLineDelim [','] ',') 0 0 5 true).1 = false ∧
    (read_uint32_limits (lineParserOfLineDelim [','] ',') 0 0 5 true).2.2.last_error
      = RTError.T_MISSING :=
  ⟨(c7_missing_value (lineParserOfLineDelim [','] ',') 0 0 5 true rfl (by decide)
      (by decide) (by decide) (by decide) (Or.inr rfl)).1,
    (c7_missing_value (lineParserOfLineDelim [','] ',') 0 0 5 true rfl (by decide)
      (by decide) (by decide) (by decide) (Or.inr rfl)).2.1⟩

/-! ## Claim C8 — whitespace-mode field termination -/

/-- The condition under which a converted value is correctly terminated at
position `p`: end of the line, a newline character, or the configured
comment character. -/
def atFieldEnd (buf : List Char) (p : Nat) (comment : Char) : Prop :=
  p = buf.length ∨ buf.getD p nullChar = '\n' ∨
    (comment ≠ nullChar ∧ buf.getD p nullChar = comment)

instance (buf : List Char) (p : Nat) (comment : Char) : Decidable (atFieldEnd buf p comment) := by
  unfold atFieldEnd; infer_instance

/-- C8: with no delimiter configured and a conversion that consumed at
least one character without a range or format error (`c2 ≠ pos`,
`errno` clean), the post-conversion check succeeds exactly when — after
skipping trailing blanks — the cursor is at end-of-line / newline /
comment, or at least one blank followed the converted value; every other
outcome fails with `T_FORMAT`. Concretely, reading `"123abc"` as an
`int32` fails with `T_FORMAT` (InvalidFormat). -/
theorem c8_blank_required_after_value (lp : LineParser) (c2 : Nat) (einval erange : Bool)
    (hd : lp.delim = nullChar) (hev : einval = false) (her : erange = false)
    (hc2 : c2 ≠ lp.pos) :
    ((read_table_post_check lp c2 einval erange).1 = true ↔
      (atFieldEnd lp.buf (skipBlanks lp.buf c2) lp.comment ∨ c2 < skipBlanks lp.buf c2)) ∧
    ((read_table_post_check lp c2 einval erange).1 = false →
      (read_table_post_check lp c2 einval erange).2.last_error = RTError.T_FORMAT) ∧
    (read_int32_limits (lineParserOfLine ['1', '2', '3', 'a', 'b', 'c']) 0
        (-(2 ^ 31)) (2 ^ 31 - 1) true).1 = false ∧
    (read_int32_limits (lineParserOfLine ['1', '2', '3', 'a', 'b', 'c']) 0
        (-(2 ^ 31)) (2 ^ 31 - 1) true).2.2.last_error = RTError.T_FORMAT := by
  have hni : ¬(einval = true ∨ c2 = lp.pos) := by
    rintro (h | h)
    · rw [hev] at h; cases h
    · exact hc2 h
  have hnr : ¬(erange = true) := by rw [her]; simp
  have hdne : ¬lp.delim ≠ nullChar := by simp [hd]
  refine ⟨?_, ?_, by decide, by decide⟩
  · simp only [read_table_post_check, if_neg hni, if_neg hnr]
    by_cases hEnd : skipBlanks lp.buf c2 = lp.buf.length ∨
        lp.buf.getD (skipBlanks lp.buf c2) nullChar = '\n' ∨
        (lp.comment ≠ nullChar ∧ lp.buf.getD (skipBlanks lp.buf c2) nullChar = lp.comment)
    · rw [if_pos hEnd]
      exact iff_of_true rfl (Or.inl hEnd)
    · rw [if_neg hEnd]
      by_cases hb : c2 < skipBlanks lp.buf c2
      · rw [if_neg (fun hh => hh.2 hb), if_neg hdne]
        exact iff_of_true rfl (Or.inr hb)
      · rw [if_pos ⟨hd, hb⟩]
        refine iff_of_false (by simp) ?_
        rintro (h | h)
        · exact hEnd h
        · exact hb h
  · intro hf
    simp only [read_table_post_check, if_neg hni, if_neg hnr] at hf ⊢
    by_cases hEnd : skipBlanks lp.buf c2 = lp.buf.length ∨
        lp.buf.getD (skipBlanks lp.buf c2) nullChar = '\n' ∨
        (lp.comment ≠ nullChar ∧ lp.buf.getD (skipBlanks lp.buf c2) nullChar = lp.comment)
    · rw [if_pos hEnd] at hf; cases hf
    · rw [if_neg hEnd] at hf ⊢
      by_cases hb : c2 < skipBlanks lp.buf c2
      · rw [if_neg (fun hh => hh.2 hb), if_neg hdne] at hf
        cases hf
      · rw [if_pos ⟨hd, hb⟩]

/-- C8 witness: on the line `"7 x"` a conversion that consumed the `7`
(so `c2 = 1`) passes the post-check because a blank separates it from the
next token. -/
theorem c8_blank_required_after_value_witness :
    ((read_table_post_check (lineParserOfLine ['7', ' ', 'x']) 1 false false).1 = true ↔
      (atFieldEnd (lineParserOfLine ['7', ' ', 'x']).buf
          (skipBlanks (lineParserOfLine ['7', ' ', 'x']).buf 1)
          (lineParserOfLine ['7', ' ', 'x']).comment ∨
        1 < skipBlanks (lineParserOfLine ['7', ' ', 'x']).buf 1)) :=
  (c8_blank_required_after_value (lineParserOfLine ['7', ' ', 'x']) 1 false false
    rfl rfl rfl (by decide)).1

/-! ## Claim C2 — unsigned reads reject a leading `-` with `T_OVERFLOW` -/

set_option maxHeartbeats 1000000 in
/-- C2: for the 32- and 64-bit unsigned readers (with arbitrary caller
bounds; the 16-bit reader delegates to the 32-bit one), a field whose
first non-blank character is `-` fails with `T_OVERFLOW` (OutOfRange) and
stores 0 — it never succeeds with a wrapped magnitude — and a first
character that is neither alphanumeric nor `+` nor `-` fails with
`T_FORMAT` (InvalidFormat). Stated for a cursor with the default
whitespace/no-comment configuration and a clean error state. -/
theorem c2_unsigned_leading_minus (lp : LineParser) (u0 un ux : Nat) (adv : Bool)
    (hOK : lp.last_error = RTError.T_OK) (hd : lp.delim = nullChar)
    (hcm : lp.comment = nullChar)
    (hp : skipBlanks lp.buf lp.pos < lp.buf.length) :
    (lp.buf.getD (skipBlanks lp.buf lp.pos) nullChar = '-' →
      (read_uint32_limits lp u0 un ux adv).1 = false ∧
      (read_uint32_limits lp u0 un ux adv).2.2.last_error = RTError.T_OVERFLOW ∧
      (read_uint32_limits lp u0 un ux adv).2.1 = 0 ∧
      (read_uint64_limits lp u0 un ux adv).1 = false ∧
      (read_uint64_limits lp u0 un ux adv).2.2.last_error = RTError.T_OVERFLOW ∧
      (read_uint64_limits lp u0 un ux adv).2.1 = 0) ∧
    (∀ c : Char, lp.buf.getD (skipBlanks lp.buf lp.pos) nullChar = c →
      charIsAlnum c = false → c ≠ '+' → c ≠ '-' → c ≠ '\n' →
      (read_uint32_limits lp u0 un ux adv).1 = false ∧
      (read_uint32_limits lp u0 un ux adv).2.2.last_error = RTError.T_FORMAT ∧
      (read_uint64_limits lp u0 un ux adv).1 = false ∧
      (read_uint64_limits lp u0 un ux adv).2.2.last_error = RTError.T_FORMAT) := by
  have h1 : stickyErr lp.last_error = false := by rw [hOK]; decide
  have h3 : ¬(lp.delim ≠ nullChar ∧
      lp.buf.getD (skipBlanks lp.buf lp.pos) nullChar = lp.delim) := by
    rintro ⟨hdd, _⟩; exact hdd hd
  constructor
  · intro hminus
    have h2 : ¬(skipBlanks lp.buf lp.pos = lp.buf.length ∨
        lp.buf.getD (skipBlanks lp.buf lp.pos) nullChar = '\n' ∨
        (lp.comment ≠ nullChar ∧
          lp.buf.getD (skipBlanks lp.buf lp.pos) nullChar = lp.comment)) := by
      rintro (he | he | ⟨hc2, _⟩)
      · omega
      · rw [hminus] at he; cases he
      · exact hc2 hcm
    have hpre : read_table_pre_check lp adv
        = (true, { lp with pos := skipBlanks lp.buf lp.pos }) := by
      simp only [read_table_pre_check, h1, Bool.false_eq_true, if_false, if_neg h2, if_neg h3]
    have hguard : ¬(charIsAlnum (lp.buf.getD (skipBlanks lp.buf lp.pos) nullChar) = true ∨
        lp.buf.getD (skipBlanks lp.buf lp.pos) nullChar = '+') := by
      rw [hminus]; decide
    have h32 : read_uint32_limits lp u0 un ux adv = (false, 0,
        { lp with
            pos := if adv = true then skipBlanks lp.buf lp.pos else lp.pos,
            last_error := RTError.T_OVERFLOW }) := by
      simp only [read_uint32_limits, hpre]
      rw [if_neg (by simp : ¬(true = false)), if_pos hguard, hminus]
      cases adv <;> simp
    have h64 : read_uint64_limits lp u0 un ux adv = (false, 0,
        { lp with
            pos := if adv = true then skipBlanks lp.buf lp.pos else lp.pos,
            last_error := RTError.T_OVERFLOW }) := by
      simp only [read_uint64_limits, hpre]
      rw [if_neg (by simp : ¬(true = false)), if_pos hguard, hminus]
      cases adv <;> simp
    rw [h32, h64]
    simp
  · intro c hgc hca hplus hminus hnl
    have h2 : ¬(skipBlanks lp.buf lp.pos = lp.buf.length ∨
        lp.buf.getD (skipBlanks lp.buf lp.pos) nullChar = '\n' ∨
        (lp.comment ≠ nullChar ∧
          lp.buf.getD (skipBlanks lp.buf lp.pos) nullChar = lp.comment)) := by
      rintro (he | he | ⟨hc2, _⟩)
      · omega
      · rw [hgc] at he; exact hnl he
      · exact hc2 hcm
    have hpre : read_table_pre_check lp adv
        = (true, { lp with pos := skipBlanks lp.buf lp.pos }) := by
      simp only [read_table_pre_check, h1, Bool.false_eq_true, if_false, if_neg h2, if_neg h3]
    have hguard : ¬(charIsAlnum (lp.buf.getD (skipBlanks lp.buf lp.pos) nullChar) = true ∨
        lp.buf.getD (skipBlanks lp.buf lp.pos) nullChar = '+') := by
      rw [hgc]
      rintro (hh | hh)
      · rw [hca] at hh; cases hh
      · exact hplus hh
    have h32 : read_uint32_limits lp u0 un ux adv = (false, 0,
        { lp with
            pos := if adv = true then skipBlanks lp.buf lp.pos else lp.pos,
            last_error := RTError.T_FORMAT }) := by
      simp only [read_uint32_limits, hpre]
      rw [if_neg (by simp : ¬(true = false)), if_pos hguard, hgc, if_neg hminus]
      cases adv <;> simp
    have h64 : read_uint64_limits lp u0 un ux adv = (false, 0,
        { lp with
            pos := if adv = true then skipBlanks lp.buf lp.pos else lp.pos,
            last_error := RTError.T_FORMAT }) := by
      simp only [read_uint64_limits, hpre]
      rw [if_neg (by simp : ¬(true = false)), if_pos hguard, hgc, if_neg hminus]
      cases adv <;> simp
    rw [h32, h64]
    simp

/-- C2 witness: reading `" -5"` as `uint32` fails with `T_OVERFLOW` and
stores 0, and reading `" *"` fails with `T_FORMAT`. -/
theorem c2_unsigned_leading_minus_witness :
    ((read_uint32_limits (lineParserOfLine [' ', '-', '5']) 7 0 100 true).1 = false ∧
      (read_uint32_limits (lineParserOfLine [' ', '-', '5']) 7 0 100 true).2.2.last_error
        = RTError.T_OVERFLOW ∧
      (read_uint32_limits (lineParserOfLine [' ', '-', '5']) 7 0 100 true).2.1 = 0 ∧
      (read_uint64_limits (lineParserOfLine [' ', '-', '5']) 7 0 100 true).1 = false ∧
      (read_uint64_limits (lineParserOfLine [' ', '-', '5']) 7 0 100 true).2.2.last_error
        = RTError.T_OVERFLOW ∧
      (read_uint64_limits (lineParserOfLine [' ', '-', '5']) 7 0 100 true).2.1 = 0) ∧
    ((read_uint32_limits (lineParserOfLine [' ', '*']) 7 0 100 true).1 = false ∧
      (read_uint32_limits (lineParserOfLine [' ', '*']) 7 0 100 true).2.2.last_error
        = RTError.T_FORMAT) :=
  ⟨(c2_unsigned_leading_minus (lineParserOfLine [' ', '-', '5']) 7 0 100 true rfl rfl rfl
      (by decide)).1 (by decide),
    ⟨((c2_unsigned_leading_minus (lineParserOfLine [' ', '*']) 7 0 100 true rfl rfl rfl
        (by decide)).2 '*' (by decide) (by decide) (by decide) (by decide) (by decide)).1,
      ((c2_unsigned_leading_minus (lineParserOfLine [' ', '*']) 7 0 100 true rfl rfl rfl
        (by decide)).2 '*' (by decide) (by decide) (by decide) (by decide) (by decide)).2.1⟩⟩

/-! ## Claim C3 — inclusive bounds and clamping of integer reads -/

/-- The numeric value of a run of decimal digit characters (the "parsed
value" of the claim, defined directly from the field's characters). -/
def digitsToNat (ds : List Char) : Nat :=
  ds.foldl (fun a c => a * 10 + (c.toNat - 48)) 0

/-- The signed parsed value of an optionally `-`-prefixed digit run. -/
def signedVal : Bool → List Char → Int
  | true, ds => -(digitsToNat ds : Int)
  | false, ds => (digitsToNat ds : Int)

/-- The sign prefix of the field. -/
def signChars : Bool → List Char
  | true => ['-']
  | false => []

theorem digitVal_digit {c : Char} (h1 : 48 ≤ c.toNat) (h2 : c.toNat ≤ 57) :
    digitVal c = some (c.toNat - 48) := by
  simp [digitVal, h1, h2]

theorem parseDigitsAux_all_digits (ds : List Char)
    (h : ∀ c ∈ ds, 48 ≤ c.toNat ∧ c.toNat ≤ 57) (acc cnt : Nat) :
    parseDigitsAux 10 ds acc cnt
      = (ds.foldl (fun a c => a * 10 + (c.toNat - 48)) acc, cnt + ds.length) := by
  induction ds generalizing acc cnt with
  | nil => simp [parseDigitsAux]
  | cons c r ih =>
    have hc := h c (List.mem_cons_self c r)
    have hd : digitVal c = some (c.toNat - 48) := digitVal_digit hc.1 hc.2
    have hlt : c.toNat - 48 < 10 := by omega
    simp only [parseDigitsAux, hd, if_pos hlt]
    rw [ih (fun x hx => h x (List.mem_cons_of_mem c hx))]
    simp only [List.foldl_cons, List.length_cons]
    refine Prod.ext rfl ?_
    simp
    omega

theorem isCSpaceChar_eq_false {c : Char} (h : 48 ≤ c.toNat ∨ c = '-') :
    isCSpaceChar c = false := by
  have h48 : 45 ≤ c.toNat := by
    rcases h with h | h
    · omega
    · rw [h]; decide
  simp only [isCSpaceChar, Bool.or_eq_false_iff, decide_eq_false_iff_not]
  refine ⟨⟨⟨⟨⟨?_, ?_⟩, ?_⟩, ?_⟩, ?_⟩, ?_⟩ <;>
    exact fun he => absurd h48 (by rw [he]; decide)

theorem isBlankChar_digit_eq_false {c : Char} (h : 48 ≤ c.toNat) :
    isBlankChar c = false := by
  simp only [isBlankChar, Bool.or_eq_false_iff, decide_eq_false_iff_not]
  exact ⟨fun he => absurd h (by rw [he]; decide), fun he => absurd h (by rw [he]; decide)⟩

theorem signSplit_digit {c : Char} (r : List Char) (h1 : 48 ≤ c.toNat) (h2 : c.toNat ≤ 57) :
    signSplit (c :: r) = (false, 0) := by
  have hm : ¬(c = '-') := fun he => absurd h1 (by rw [he]; decide)
  have hp : ¬(c = '+') := fun he => absurd h1 (by rw [he]; decide)
  simp [signSplit, hm, hp]

theorem basePfx_ten (s : List Char) : basePfx 10 s = (10, 0) := by
  simp [basePfx]

/-- `strtol` on an optionally signed all-digit string parses the whole
string to its decimal value, provided that value fits in `long`. -/
theorem strtolModel_digits (neg : Bool) (ds : List Char) (hne : ds ≠ [])
    (hdig : ∀ c ∈ ds, 48 ≤ c.toNat ∧ c.toNat ≤ 57)
    (hlo : LONG_MIN ≤ signedVal neg ds) (hhi : signedVal neg ds ≤ LONG_MAX) :
    strtolModel (signChars neg ++ ds) 10
      = ⟨signedVal neg ds, (signChars neg ++ ds).length, false, false⟩ := by
  obtain ⟨c, r, rfl⟩ := List.exists_cons_of_ne_nil hne
  have hc := hdig c (List.mem_cons_self c r)
  have hbase : ¬((10 : Nat) ≠ 0 ∧ (10 < 2 ∨ 10 > 36)) := by decide
  have hpd : parseDigitsAux 10 (c :: r) 0 0
      = (digitsToNat (c :: r), 0 + (c :: r).length) :=
    parseDigitsAux_all_digits (c :: r) hdig 0 0
  cases neg with
  | false =>
    have hws : countCSpaces (c :: r) = 0 := by
      simp [countCSpaces, isCSpaceChar_eq_false (Or.inl hc.1)]
    have hsg : signSplit (c :: r) = (false, 0) := signSplit_digit r hc.1 hc.2
    simp only [signChars, List.nil_append] at *
    simp only [strtolModel, if_neg hbase, hws, List.drop_zero, hsg, Nat.zero_add,
      Nat.add_zero, basePfx_ten, hpd]
    rw [if_neg (by simp : ¬((c :: r).length = 0))]
    simp only [Bool.false_eq_true, if_false]
    simp only [signedVal] at hlo hhi
    rw [if_neg (by omega : ¬((digitsToNat (c :: r) : Int) > LONG_MAX))]
    rw [if_neg (by omega : ¬((digitsToNat (c :: r) : Int) < LONG_MIN))]
    simp [signedVal]
  | true =>
    have hws : countCSpaces ('-' :: c :: r) = 0 := by
      simp [countCSpaces, isCSpaceChar_eq_false (Or.inr rfl)]
    have hsg : signSplit ('-' :: c :: r) = (true, 1) := by simp [signSplit]
    simp only [signChars, List.cons_append, List.nil_append] at *
    simp only [strtolModel, if_neg hbase, hws, List.drop_zero, hsg, Nat.zero_add,
      Nat.add_zero, basePfx_ten, List.drop_succ_cons, List.drop_zero, hpd]
    rw [if_neg (by simp : ¬((c :: r).length = 0))]
    simp only [if_true]
    simp only [signedVal] at hlo hhi
    rw [if_neg (by omega : ¬(-(digitsToNat (c :: r) : Int) > LONG_MAX))]
    rw [if_neg (by omega : ¬(-(digitsToNat (c :: r) : Int) < LONG_MIN))]
    simp [signedVal, Nat.add_comm]

/-- A pre-check on a clean cursor standing directly on a non-blank,
non-newline field character with the default configuration succeeds
without moving. -/
theorem pre_check_clean (lp : LineParser) (adv : Bool)
    (hOK : stickyErr lp.last_error = false)
    (hsk : skipBlanks lp.buf lp.pos = lp.pos)
    (hlt : lp.pos < lp.buf.length)
    (hnl : lp.buf.getD lp.pos nullChar ≠ '\n')
    (hcm : lp.comment = nullChar) (hd : lp.delim = nullChar) :
    read_table_pre_check lp adv = (true, lp) := by
  have h2 : ¬(lp.pos = lp.buf.length ∨
      lp.buf.getD lp.pos nullChar = '\n' ∨
      (lp.comment ≠ nullChar ∧ lp.buf.getD lp.pos nullChar = lp.comment)) := by
    rintro (he | he | ⟨hcc, _⟩)
    · omega
    · exact hnl he
    · exact hcc hcm
  have h3 : ¬(lp.delim ≠ nullChar ∧ lp.buf.getD lp.pos nullChar = lp.delim) := by
    rintro ⟨hdd, _⟩
    exact hdd hd
  simp only [read_table_pre_check, hOK, Bool.false_eq_true, if_false, hsk, if_neg h2,
    if_neg h3]

/-- A post-check whose conversion ended exactly at the end of the line
succeeds, setting `T_OK`, moving the position to the end of the line and
leaving the column counter untouched. -/
theorem post_check_at_end (lp : LineParser) (hne : lp.buf.length ≠ lp.pos) :
    read_table_post_check lp lp.buf.length false false
      = (true, { lp with pos := lp.buf.length, last_error := RTError.T_OK }) := by
  have hni : ¬((false = true) ∨ lp.buf.length = lp.pos) := by
    rintro (he | he)
    · cases he
    · exact hne he
  have hnr : ¬(false = true) := by simp
  simp only [read_table_post_check, if_neg hni, if_neg hnr,
    skipBlanks_of_ge (Nat.le_refl lp.buf.length)]
  simp

set_option maxHeartbeats 1000000 in
/-- C3 (amended): for a bounded integer read of a well-formed decimal
field whose parsed value `v` fits the native 64-bit `long` conversion
range, the bounds are inclusive: `mn ≤ v ≤ mx` succeeds and stores `v`;
`v > mx` fails with `T_OVERFLOW` and stores `mx`; `v < mn` fails with
`T_OVERFLOW` and stores `mn`. (When the value exceeds the `long` range
itself, the read still fails with `T_OVERFLOW` but the output is left
unassigned — see the counterexample.) Stated for both the 64-bit and the
32-bit signed readers. -/
theorem c3_bounded_integer_reads (neg : Bool) (ds : List Char) (i0 mn mx : Int)
    (hne : ds ≠ []) (hdig : ∀ c ∈ ds, 48 ≤ c.toNat ∧ c.toNat ≤ 57)
    (hmnmx : mn ≤ mx)
    (hlo : LONG_MIN ≤ signedVal neg ds) (hhi : signedVal neg ds ≤ LONG_MAX) :
    (mn ≤ signedVal neg ds ∧ signedVal neg ds ≤ mx →
      read_int64_limits (lineParserOfLine (signChars neg ++ ds)) i0 mn mx true
        = (true, signedVal neg ds,
            { lineParserOfLine (signChars neg ++ ds) with
                pos := (signChars neg ++ ds).length, last_error := RTError.T_OK }) ∧
      read_int32_limits (lineParserOfLine (signChars neg ++ ds)) i0 mn mx true
        = (true, signedVal neg ds,
            { lineParserOfLine (signChars neg ++ ds) with
                pos := (signChars neg ++ ds).length, last_error := RTError.T_OK })) ∧
    (signedVal neg ds > mx →
      (read_int64_limits (lineParserOfLine (signChars neg ++ ds)) i0 mn mx true).1 = false ∧
      (read_int64_limits (lineParserOfLine (signChars neg ++ ds)) i0 mn mx true).2.1 = mx ∧
      (read_int64_limits (lineParserOfLine (signChars neg ++ ds))
        i0 mn mx true).2.2.last_error = RTError.T_OVERFLOW ∧
      (read_int32_limits (lineParserOfLine (signChars neg ++ ds)) i0 mn mx true).2.1 = mx) ∧
    (signedVal neg ds < mn →
      (read_int64_limits (lineParserOfLine (signChars neg ++ ds)) i0 mn mx true).1 = false ∧
      (read_int64_limits (lineParserOfLine (signChars neg ++ ds)) i0 mn mx true).2.1 = mn ∧
      (read_int64_limits (lineParserOfLine (signChars neg ++ ds))
        i0 mn mx true).2.2.last_error = RTError.T_OVERFLOW ∧
      (read_int32_limits (lineParserOfLine (signChars neg ++ ds)) i0 mn mx true).2.1 = mn) := by
  have h3264 : read_int32_limits = read_int64_limits := rfl
  have hbufne : signChars neg ++ ds ≠ [] := by
    cases neg <;> simp [signChars, hne]
  have hlenpos : 0 < (signChars neg ++ ds).length := List.length_pos.mpr hbufne
  have hfirst48 : 45 ≤ ((signChars neg ++ ds).getD 0 nullChar).toNat := by
    cases neg with
    | false =>
      obtain ⟨c, r, rfl⟩ := List.exists_cons_of_ne_nil hne
      have := (hdig c (List.mem_cons_self c r)).1
      simp only [signChars, List.nil_append, List.getD_cons_zero]
      omega
    | true =>
      simp only [signChars, List.cons_append, List.nil_append, List.getD_cons_zero]
      decide
  have hfirst : isBlankChar ((signChars neg ++ ds).getD 0 nullChar) = false := by
    simp only [isBlankChar, Bool.or_eq_false_iff, decide_eq_false_iff_not]
    exact ⟨fun he => absurd hfirst48 (by rw [he]; decide),
      fun he => absurd hfirst48 (by rw [he]; decide)⟩
  have hskip : skipBlanks (signChars neg ++ ds) 0 = 0 := skipBlanks_eq_self hlenpos hfirst
  have hnotnl : ¬((signChars neg ++ ds).getD 0 nullChar = '\n') :=
    fun he => absurd hfirst48 (by rw [he]; decide)
  have hpre : read_table_pre_check (lineParserOfLine (signChars neg ++ ds)) true
      = (true, lineParserOfLine (signChars neg ++ ds)) :=
    pre_check_clean (lineParserOfLine (signChars neg ++ ds)) true rfl hskip hlenpos
      hnotnl rfl rfl
  have hstr : strtolModel (List.drop 0 (signChars neg ++ ds)) 10
      = ⟨signedVal neg ds, (signChars neg ++ ds).length, false, false⟩ := by
    rw [List.drop_zero]
    exact strtolModel_digits neg ds hne hdig hlo hhi
  have hb : (lineParserOfLine (signChars neg ++ ds)).buf = signChars neg ++ ds := rfl
  have hposz : (lineParserOfLine (signChars neg ++ ds)).pos = 0 := rfl
  have hbase' : (lineParserOfLine (signChars neg ++ ds)).base = 10 := rfl
  have hpost := post_check_at_end (lineParserOfLine (signChars neg ++ ds))
    (show (signChars neg ++ ds).length ≠ 0 by omega)
  rw [hb] at hpost
  refine ⟨?_, ?_, ?_⟩
  · rintro ⟨hmn, hmx⟩
    have hnb : ¬(signedVal neg ds > mx ∨ signedVal neg ds < mn) := by omega
    rw [h3264]
    have hgoal : read_int64_limits (lineParserOfLine (signChars neg ++ ds)) i0 mn mx true
        = (true, signedVal neg ds,
            { lineParserOfLine (signChars neg ++ ds) with
                pos := (signChars neg ++ ds).length, last_error := RTError.T_OK }) := by
      simp only [read_int64_limits, hpre, hb, hposz, hbase', Nat.zero_add, hstr, hpost]
      simp [hnb]
    exact ⟨hgoal, hgoal⟩
  · intro hgt
    have hnlt : ¬(signedVal neg ds < mn) := by omega
    rw [h3264]
    have hgoal : read_int64_limits (lineParserOfLine (signChars neg ++ ds)) i0 mn mx true
        = (false, mx,
            { lineParserOfLine (signChars neg ++ ds) with
                pos := (signChars neg ++ ds).length, last_error := RTError.T_OVERFLOW }) := by
      simp only [read_int64_limits, hpre, hb, hposz, hbase', Nat.zero_add, hstr, hpost]
      simp [hgt, hnlt]
    rw [hgoal]
    exact ⟨rfl, rfl, rfl, rfl⟩
  · intro hlt
    have hngt : ¬(signedVal neg ds > mx) := by omega
    rw [h3264]
    have hgoal : read_int64_limits (lineParserOfLine (signChars neg ++ ds)) i0 mn mx true
        = (false, mn,
            { lineParserOfLine (signChars neg ++ ds) with
                pos := (signChars neg ++ ds).length, last_error := RTError.T_OVERFLOW }) := by
      simp only [read_int64_limits, hpre, hb, hposz, hbase', Nat.zero_add, hstr, hpost]
      simp [hlt, hngt]
    rw [hgoal]
    exact ⟨rfl, rfl, rfl, rfl⟩

/-- C3 witness: the value 7 read with inclusive bounds [0, 7] succeeds and
is stored (a value exactly equal to `max` succeeds). -/
theorem c3_bounded_integer_reads_witness :
    read_int64_limits (lineParserOfLine (signChars false ++ ['7'])) 0 0 7 true
      = (true, signedVal false ['7'],
          { lineParserOfLine (signChars false ++ ['7']) with
              pos := (signChars false ++ ['7']).length, last_error := RTError.T_OK }) :=
  ((c3_bounded_integer_reads false ['7'] 0 0 7 (by decide) (by decide) (by decide)
    (by decide) (by decide)).1 ⟨by decide, by decide⟩).1

/-- C3 counterexample: reading `"99999999999999999999"` (beyond the
64-bit `long` range) as an `int32` with the full `int32` bounds fails
with `T_OVERFLOW`, but the output keeps its previous value 7 — it is not
set to the nearest bound as the claim states. -/
theorem c3_no_clamp_on_conversion_overflow :
    (read_int32_limits (lineParserOfLine "99999999999999999999".data) 7
        (-(2 ^ 31)) (2 ^ 31 - 1) true).1 = false ∧
    (read_int32_limits (lineParserOfLine "99999999999999999999".data) 7
        (-(2 ^ 31)) (2 ^ 31 - 1) true).2.2.last_error = RTError.T_OVERFLOW ∧
    (read_int32_limits (lineParserOfLine "99999999999999999999".data) 7
        (-(2 ^ 31)) (2 ^ 31 - 1) true).2.1 = 7 ∧
    (7 : Int) ≠ 2 ^ 31 - 1 ∧ (7 : Int) ≠ -(2 ^ 31) := by
  decide

/-! ## Claim C6 — the variadic `read(ops...)` combinator -/

theorem readSeq_cons_true {lp : LineParser} {op : ReadOp} {rest : List ReadOp}
    (h : (applyOp op lp).1 = true) :
    readSeq lp (op :: rest) = ((readSeq (applyOp op lp).2.2 rest).1,
      (readSeq (applyOp op lp).2.2 rest).2.1,
      (applyOp op lp).2.1.toList ++ (readSeq (applyOp op lp).2.2 rest).2.2) := by
  simp only [readSeq, h, if_true]

theorem readSeq_cons_false {lp : LineParser} {op : ReadOp} {rest : List ReadOp}
    (h : (applyOp op lp).1 = false) :
    readSeq lp (op :: rest) = (false, (applyOp op lp).2.2, []) := by
  simp only [readSeq, h, Bool.false_eq_true, if_false]

/-- A failing `readSeq` stops at the first failing operation: some prefix
of `k` operations succeeds, operation `k` fails from the prefix's state,
the final state is that failing operation's state, and the outputs are
exactly those assigned by the successful prefix. -/
theorem readSeq_first_failure (ops : List ReadOp) : ∀ lp : LineParser,
    (readSeq lp ops).1 = false →
    ∃ k, ∃ hk : k < ops.length,
      (readSeq lp (ops.take k)).1 = true ∧
      (applyOp (ops.get ⟨k, hk⟩) (readSeq lp (ops.take k)).2.1).1 = false ∧
      (readSeq lp ops).2.1 = (applyOp (ops.get ⟨k, hk⟩) (readSeq lp (ops.take k)).2.1).2.2 ∧
      (readSeq lp ops).2.2 = (readSeq lp (ops.take k)).2.2 := by
  induction ops with
  | nil =>
    intro lp h
    simp [readSeq] at h
  | cons op rest ih =>
    intro lp h
    by_cases hr : (applyOp op lp).1 = true
    · have hs : (readSeq (applyOp op lp).2.2 rest).1 = false := by
        rw [readSeq_cons_true hr] at h
        exact h
      obtain ⟨k, hk, h1, h2, h3, h4⟩ := ih (applyOp op lp).2.2 hs
      refine ⟨k + 1, by simpa using Nat.succ_lt_succ hk, ?_, ?_, ?_, ?_⟩
      · simp only [List.take_succ_cons]
        rw [@readSeq_cons_true lp op (List.take k rest) hr]
        exact h1
      · simp only [List.take_succ_cons, List.get_cons_succ]
        rw [@readSeq_cons_true lp op (List.take k rest) hr]
        exact h2
      · simp only [List.take_succ_cons, List.get_cons_succ]
        rw [@readSeq_cons_true lp op rest hr, @readSeq_cons_true lp op (List.take k rest) hr]
        exact h3
      · simp only [List.take_succ_cons]
        rw [@readSeq_cons_true lp op rest hr, @readSeq_cons_true lp op (List.take k rest) hr]
        simp only []
        rw [h4]
    · have hrf : (applyOp op lp).1 = false := Bool.not_eq_true _ ▸ hr
      refine ⟨0, by simp, rfl, hrf, ?_, ?_⟩
      · rw [readSeq_cons_false hrf]
        rfl
      · rw [readSeq_cons_false hrf]
        rfl

/-- `readSeq` succeeds exactly when every operation, applied in order to
the state produced by its predecessors, succeeds. -/
theorem readSeq_true_iff (ops : List ReadOp) : ∀ lp : LineParser,
    (readSeq lp ops).1 = true ↔
      ∀ k, ∀ hk : k < ops.length,
        (applyOp (ops.get ⟨k, hk⟩) (readSeq lp (ops.take k)).2.1).1 = true := by
  induction ops with
  | nil =>
    intro lp
    simp [readSeq]
  | cons op rest ih =>
    intro lp
    by_cases hr : (applyOp op lp).1 = true
    · constructor
      · intro hs k hk
        cases k with
        | zero => exact hr
        | succ k =>
          have hk' : k < rest.length := by simpa using hk
          have hs' : (readSeq (applyOp op lp).2.2 rest).1 = true := by
            rw [readSeq_cons_true hr] at hs
            exact hs
          have := (ih (applyOp op lp).2.2).mp hs' k hk'
          simp only [List.get_cons_succ, List.take_succ_cons]
          rw [@readSeq_cons_true lp op (List.take k rest) hr]
          exact this
      · intro hall
        rw [@readSeq_cons_true lp op rest hr]
        refine (ih (applyOp op lp).2.2).mpr ?_
        intro k hk
        have := hall (k + 1) (by simpa using Nat.succ_lt_succ hk)
        simp only [List.get_cons_succ, List.take_succ_cons] at this
        rw [@readSeq_cons_true lp op (List.take k rest) hr] at this
        exact this
    · have hrf : (applyOp op lp).1 = false := Bool.not_eq_true _ ▸ hr
      rw [readSeq_cons_false hrf]
      constructor
      · intro hcon
        cases hcon
      · intro hall
        have h2 : (applyOp op lp).1 = true := hall 0 (by simp)
        rw [hrf] at h2
        exact h2

set_option maxHeartbeats 400000 in
/-- C6 (amended): the variadic `read(ops...)` applies the operations
left-to-right; it succeeds iff every operation succeeds; on failure it
stops at the first failing operation, whose error state is returned, with
only the outputs of the earlier successful operations assigned. After a
fully successful read of 3 well-formed whitespace-separated fields of the
line `"1 2 3"`, the outputs are `[1, 2, 3]` and `column = 2`: the final
field, terminated by the end of the line, does not increment the column
counter, so `column = N - 1` rather than `N`. -/
theorem c6_variadic_read (lp : LineParser) (ops : List ReadOp) :
    ((readSeq lp ops).1 = false →
      ∃ k, ∃ hk : k < ops.length,
        (readSeq lp (ops.take k)).1 = true ∧
        (applyOp (ops.get ⟨k, hk⟩) (readSeq lp (ops.take k)).2.1).1 = false ∧
        (readSeq lp ops).2.1
          = (applyOp (ops.get ⟨k, hk⟩) (readSeq lp (ops.take k)).2.1).2.2 ∧
        (readSeq lp ops).2.2 = (readSeq lp (ops.take k)).2.2) ∧
    ((readSeq lp ops).1 = true ↔
      ∀ k, ∀ hk : k < ops.length,
        (applyOp (ops.get ⟨k, hk⟩) (readSeq lp (ops.take k)).2.1).1 = true) ∧
    readSeq (lineParserOfLine ['1', ' ', '2', ' ', '3'])
        [.opInt32 (-(2 ^ 31)) (2 ^ 31 - 1), .opInt32 (-(2 ^ 31)) (2 ^ 31 - 1),
          .opInt32 (-(2 ^ 31)) (2 ^ 31 - 1)]
      = (true, { lineParserOfLine ['1', ' ', '2', ' ', '3'] with
          pos := 5, col := 2, last_error := RTError.T_OK }, [1, 2, 3]) :=
  ⟨readSeq_first_failure ops lp, readSeq_true_iff ops lp, by decide⟩

/-- C6 witness: on the line `"1 x"`, reading two `int32` fields fails, and
the theorem locates the first failing operation. -/
theorem c6_variadic_read_witness :
    ∃ k, ∃ hk : k < ([ReadOp.opInt32 (-(2 ^ 31)) (2 ^ 31 - 1),
        ReadOp.opInt32 (-(2 ^ 31)) (2 ^ 31 - 1)] : List ReadOp).length,
      (readSeq (lineParserOfLine ['1', ' ', 'x'])
        (([ReadOp.opInt32 (-(2 ^ 31)) (2 ^ 31 - 1),
          ReadOp.opInt32 (-(2 ^ 31)) (2 ^ 31 - 1)] : List ReadOp).take k)).1 = true ∧
      (applyOp (([ReadOp.opInt32 (-(2 ^ 31)) (2 ^ 31 - 1),
            ReadOp.opInt32 (-(2 ^ 31)) (2 ^ 31 - 1)] : List ReadOp).get ⟨k, hk⟩)
          (readSeq (lineParserOfLine ['1', ' ', 'x'])
            (([ReadOp.opInt32 (-(2 ^ 31)) (2 ^ 31 - 1),
              ReadOp.opInt32 (-(2 ^ 31)) (2 ^ 31 - 1)] : List ReadOp).take k)).2.1).1
        = false ∧
      (readSeq (lineParserOfLine ['1', ' ', 'x'])
          ([ReadOp.opInt32 (-(2 ^ 31)) (2 ^ 31 - 1),
            ReadOp.opInt32 (-(2 ^ 31)) (2 ^ 31 - 1)] : List ReadOp)).2.1
        = (applyOp (([ReadOp.opInt32 (-(2 ^ 31)) (2 ^ 31 - 1),
              ReadOp.opInt32 (-(2 ^ 31)) (2 ^ 31 - 1)] : List ReadOp).get ⟨k, hk⟩)
            (readSeq (lineParserOfLine ['1', ' ', 'x'])
              (([ReadOp.opInt32 (-(2 ^ 31)) (2 ^ 31 - 1),
                ReadOp.opInt32 (-(2 ^ 31)) (2 ^ 31 - 1)] : List ReadOp).take k)).2.1).2.2 ∧
      (readSeq (lineParserOfLine ['1', ' ', 'x'])
          ([ReadOp.opInt32 (-(2 ^ 31)) (2 ^ 31 - 1),
            ReadOp.opInt32 (-(2 ^ 31)) (2 ^ 31 - 1)] : List ReadOp)).2.2
        = (readSeq (lineParserOfLine ['1', ' ', 'x'])
            (([ReadOp.opInt32 (-(2 ^ 31)) (2 ^ 31 - 1),
              ReadOp.opInt32 (-(2 ^ 31)) (2 ^ 31 - 1)] : List ReadOp).take k)).2.2 :=
  (c6_variadic_read (lineParserOfLine ['1', ' ', 'x'])
    [ReadOp.opInt32 (-(2 ^ 31)) (2 ^ 31 - 1), ReadOp.opInt32 (-(2 ^ 31)) (2 ^ 31 - 1)]).1
    (by decide)

/-- C6 counterexample: after a fully successful variadic read of the two
well-formed fields of the line `"1 2"`, `column` is 1, not 2 — the claim
that `column` equals the number of operations fails. -/
theorem c6_col_equals_N_false :
    (readSeq (lineParserOfLine ['1', ' ', '2'])
      [.opInt32 (-(2 ^ 31)) (2 ^ 31 - 1), .opInt32 (-(2 ^ 31)) (2 ^ 31 - 1)]).1 = true ∧
    (readSeq (lineParserOfLine ['1', ' ', '2'])
      [.opInt32 (-(2 ^ 31)) (2 ^ 31 - 1), .opInt32 (-(2 ^ 31)) (2 ^ 31 - 1)]).2.1.col ≠ 2 := by
  decide

/-! ## Claim C9 — terminal states make `read_line` a no-op failure -/

/-- C9: once the line-acquisition state machine is terminal, `read_line`
returns failure as a complete no-op. `T_EOF`, `T_COPIED` and
`T_ERROR_FOPEN` are rejected by the guard at the top of `read_line`;
`T_READ_ERROR` is absent from that guard, but in every reachable
`T_READ_ERROR` state the stream's `failbit` is set (and `eofbit` is not,
since `read_line` checks `eof()` first when it assigns the error), so the
`getline` sentry fails without extracting anything and `read_line` again
returns failure with the state — including the error kind — unchanged. -/
theorem c9_read_line_terminal_no_op (rt : ReadTable2) (skip : Bool)
    (h : (rt.lp.last_error = RTError.T_EOF ∨ rt.lp.last_error = RTError.T_COPIED ∨
          rt.lp.last_error = RTError.T_ERROR_FOPEN) ∨
        (rt.lp.last_error = RTError.T_READ_ERROR ∧ rt.is.failbit = true ∧
          rt.is.eofbit = false)) :
    read_line rt skip = (false, rt) := by
  rcases rt with ⟨⟨buf0, pos0, col0, base0, err0, d0, cm0, an0⟩, ⟨lines0, fn0, eb0, fb0⟩, line0⟩
  rcases h with (h3 | h3 | h3) | ⟨he, hf, hne⟩
  · simp only at h3
    subst h3
    simp [read_line]
  · simp only at h3
    subst h3
    simp [read_line]
  · simp only at h3
    subst h3
    simp [read_line]
  · simp only at he hf hne
    subst he
    subst hf
    subst hne
    simp only [read_line]
    rw [if_neg (by rintro (hh | hh | hh) <;> cases hh)]
    rw [if_neg (by simp : ¬(false = true))]
    rw [read_line_loop]
    simp [istreamGetline]

/-- C9 witness: a reader in the `T_READ_ERROR` state (stream `failbit`
set) gets a no-op failure from `read_line`. -/
theorem c9_read_line_terminal_no_op_witness :
    read_line ⟨{ lineParserOfLine ['x'] with last_error := RTError.T_READ_ERROR },
        ⟨[['a']], true, false, true⟩, 3⟩ true
      = (false, ⟨{ lineParserOfLine ['x'] with last_error := RTError.T_READ_ERROR },
          ⟨[['a']], true, false, true⟩, 3⟩) :=
  c9_read_line_terminal_no_op
    ⟨{ lineParserOfLine ['x'] with last_error := RTError.T_READ_ERROR },
      ⟨[['a']], true, false, true⟩, 3⟩ true (Or.inr ⟨rfl, rfl, rfl⟩)

/-- C9 counterexample: `T_READ_ERROR` is missing from `read_line`'s
guard list (`read_table_cpp.h:473-474` checks only `T_EOF`, `T_COPIED`,
`T_ERROR_FOPEN`). A reader in the `ReadFailure` state whose stream has
been externally recovered (`failbit` cleared, e.g. by `is.clear()` on the
caller-owned stream) re-fetches a line and succeeds, resetting the error
to `T_OK` — not the unconditional no-op failure the claim states. -/
theorem c9_read_error_not_guarded :
    read_line ⟨{ lineParserOfLine ['x'] with last_error := RTError.T_READ_ERROR },
        ⟨[['7']], true, false, false⟩, 0⟩ true
      = (true, ⟨⟨['7'], 0, 0, 10, RTError.T_OK, nullChar, nullChar, true⟩,
          ⟨[], true, false, false⟩, 1⟩) := by
  simp only [read_line]
  rw [if_neg (by decide), if_neg (by decide)]
  rw [read_line_loop]
  simp [istreamGetline, read_line_finish, stripEol, skipBlanks, countBlanks, isBlankChar,
    lineParserOfLine]

/-! ## Claim C10 — move transfer of the parser state -/

/-- A source parser for the move-assignment test: every configurable
field differs from the destination's. -/
def c10src : LineParser :=
  ⟨['a', 'b'], 1, 1, 16, RTError.T_FORMAT, ',', '#', false⟩

/-- A destination parser with its own delimiter `;`. -/
def c10dst : LineParser :=
  ⟨['z'], 0, 0, 10, RTError.T_OK, ';', nullChar, true⟩

/-- C10 (the bug, evaluated): move-assigning `c10src` into `c10dst`
transfers the line text, position, column, base, comment character,
NaN/Infinity flag and error kind, and invalidates the source
(`T_COPIED`, position and column 0) — but the destination's delimiter
remains its old `;` instead of the source's `,`: the member-wise copies
in `operator=(line_parser&&)` (and the move constructor) omit `delim`. -/
theorem c10_move_assign_drops_delim :
    (line_parser_move_assign c10dst c10src).1.buf = ['a', 'b'] ∧
    (line_parser_move_assign c10dst c10src).1.pos = 1 ∧
    (line_parser_move_assign c10dst c10src).1.col = 1 ∧
    (line_parser_move_assign c10dst c10src).1.base = 16 ∧
    (line_parser_move_assign c10dst c10src).1.last_error = RTError.T_FORMAT ∧
    (line_parser_move_assign c10dst c10src).1.comment = '#' ∧
    (line_parser_move_assign c10dst c10src).1.allow_nan_inf = false ∧
    (line_parser_move_assign c10dst c10src).1.delim = ';' ∧
    (line_parser_move_assign c10dst c10src).1.delim ≠ c10src.delim ∧
    (line_parser_move_assign c10dst c10src).2.last_error = RTError.T_COPIED ∧
    (line_parser_move_assign c10dst c10src).2.pos = 0 ∧
    (line_parser_move_assign c10dst c10src).2.col = 0 := by
  decide

end ReadTable
